import Mathlib

/-!
Verification of the incremental daily sales aggregation pipeline of the
sunrise-donuts repository, a shallow embedding of `squareup/sales_util.py`
and `squareup/sales_data_util.py`.

Modelling conventions:
* Python integers (cent amounts) become `Int`; the float accumulators of
  `sales_data` become `ℚ` (every accumulation step adds an integer, and the
  single division by `100.0` at the end is exact on such values up to the
  floating-point epsilon the spec itself allows for).
* A Python dict payment becomes a structure with `Option` fields: an absent
  key is `none`.
* The Square API is an oracle: the finite list of responses the requests of one day
  would receive, consumed in order.  A `none` result of the per-day
  processing marks a point where the Python code either raises (`"cursor" in
  result.body` with `body` equal to `None` raises `TypeError`) or where the
  oracle list is exhausted while the loop still wants another page.
* Naive local wall-clock time is measured in milliseconds from a fixed
  origin; `pytz.localize(...).isoformat()` attaches the fixed zone and so is
  injective and order-preserving on these values (midnight is never inside
  the ambiguous DST hour), hence requests carry the wall-clock values.
-/

/-- A Square `Money` object: the nested dict `{"amount": <int cents>}`. -/
structure Money where
  amount : Int
deriving Repr, DecidableEq

/-- One element of the `processing_fee` list: `{"amount_money": {"amount": n}}`. -/
structure ProcessingFee where
  amount_money : Money
deriving Repr, DecidableEq

/-- A payment dict as read by `sum_sales`: `status` plus the optional
monetary sub-dicts; a missing key is `none`. -/
structure Payment where
  status : String
  amount_money : Option Money := none
  tip_money : Option Money := none
  refunded_money : Option Money := none
  total_money : Option Money := none
  processing_fee : Option (List ProcessingFee) := none
deriving Repr, DecidableEq

/-- The numeric slots of the per-day `sales_data` dict, one per column
header except `Sales` (the `Sales` slot holds `0.0` until it is overwritten
by the date string just before the row is written, and is never read as a
number).  All default to `0`, as in `{header: 0.0 for header in headers}`. -/
structure SalesData where
  grossSales : ℚ := 0
  returns : ℚ := 0
  discountsComps : ℚ := 0
  netSales : ℚ := 0
  giftCardSales : ℚ := 0
  tax : ℚ := 0
  tip : ℚ := 0
  refundsByAmount : ℚ := 0
  total : ℚ := 0
  totalCollected : ℚ := 0
  cash : ℚ := 0
  card : ℚ := 0
  other : ℚ := 0
  giftCard : ℚ := 0
  fees : ℚ := 0
  netTotal : ℚ := 0
deriving Repr, DecidableEq

/-- The row finally written for one day: the `Sales` column (the
`MM/DD/YYYY` date string) together with the numeric columns. -/
structure DailyRecord where
  sales : String
  metrics : SalesData
deriving Repr, DecidableEq

/-- Body of a Square `list_payments` response: the optional `payments` list
and the optional continuation `cursor`. -/
structure ResponseBody where
  payments : Option (List Payment) := none
  cursor : Option String := none
deriving Repr, DecidableEq

/-- A Square API result: `is_success()` plus the response body (`none` for a
falsy body). -/
structure SquareResult where
  is_success : Bool
  body : Option ResponseBody := none
deriving Repr, DecidableEq

/-- One call to `client.payments.list_payments`, recording the window bounds
and the cursor it was given (naive local wall-clock milliseconds stand for
the zone-aware ISO-8601 strings, see the module comment). -/
structure ListPaymentsRequest where
  begin_time : Nat
  end_time : Nat
  cursor : Option String := none
deriving Repr, DecidableEq

/-- `payment["X"]["amount"] if "X" in payment else 0`. -/
def optAmount : Option Money → Int
  | none => 0
  | some m => m.amount

/-- `payment["processing_fee"][0]["amount_money"]["amount"] if
"processing_fee" in payment else 0`.  Python raises `IndexError` when the
key is present with an empty list; that unreachable-in-practice case is
modelled as `0` and theorems about fees only use absent or nonempty lists. -/
def feeHeadAmount : Option (List ProcessingFee) → Int
  | none => 0
  | some l => (l.headD ⟨⟨0⟩⟩).amount_money.amount

/-- The status filter of `sum_sales`: the loop body runs unless
`payment["status"] != "COMPLETED" and payment["status"] != "APPROVED"`. -/
def counted (p : Payment) : Bool :=
  p.status == "COMPLETED" || p.status == "APPROVED"

namespace sales_util

/-- One iteration of the `for payment in payments` loop of `sum_sales` in
`squareup/sales_util.py` (fees are added: `sales_data["Fees"] += ...`). -/
def sumStep (sd : SalesData) (p : Payment) : SalesData :=
  if counted p then
    { sd with
      grossSales := sd.grossSales + (optAmount p.amount_money : ℚ)
      tip := sd.tip + (optAmount p.tip_money : ℚ)
      refundsByAmount := sd.refundsByAmount + (optAmount p.refunded_money : ℚ)
      total := sd.total + (optAmount p.total_money : ℚ)
      fees := sd.fees + (feeHeadAmount p.processing_fee : ℚ) }
  else sd

/-- `sum_sales` of `squareup/sales_util.py`: accumulate over the batch, then
recompute the derived fields, with `Net Total = Total - Fees`. -/
def sum_sales (sd : SalesData) (payments : List Payment) : SalesData :=
  let sd := payments.foldl sumStep sd
  { sd with
    netTotal := sd.total - sd.fees
    netSales := sd.grossSales - sd.refundsByAmount
    totalCollected := sd.total
    card := sd.total }

end sales_util

namespace sales_data_util

/-- One iteration of the `for payment in payments` loop of `sum_sales` in
`squareup/sales_data_util.py` (fees are subtracted:
`sales_data["Fees"] -= ...`). -/
def sumStep (sd : SalesData) (p : Payment) : SalesData :=
  if counted p then
    { sd with
      grossSales := sd.grossSales + (optAmount p.amount_money : ℚ)
      tip := sd.tip + (optAmount p.tip_money : ℚ)
      refundsByAmount := sd.refundsByAmount + (optAmount p.refunded_money : ℚ)
      total := sd.total + (optAmount p.total_money : ℚ)
      fees := sd.fees - (feeHeadAmount p.processing_fee : ℚ) }
  else sd

/-- `sum_sales` of `squareup/sales_data_util.py`: accumulate over the batch,
then recompute the derived fields, with `Net Total = Total + Fees`. -/
def sum_sales (sd : SalesData) (payments : List Payment) : SalesData :=
  let sd := payments.foldl sumStep sd
  { sd with
    netTotal := sd.total + sd.fees
    netSales := sd.grossSales - sd.refundsByAmount
    totalCollected := sd.total
    card := sd.total }

end sales_data_util

/-- `convert_cents_to_usd`: `for header in sales_data: sales_data[header] /= 100.0`,
identical in both files. -/
def convert_cents_to_usd (sd : SalesData) : SalesData where
  grossSales := sd.grossSales / 100
  returns := sd.returns / 100
  discountsComps := sd.discountsComps / 100
  netSales := sd.netSales / 100
  giftCardSales := sd.giftCardSales / 100
  tax := sd.tax / 100
  tip := sd.tip / 100
  refundsByAmount := sd.refundsByAmount / 100
  total := sd.total / 100
  totalCollected := sd.totalCollected / 100
  cash := sd.cash / 100
  card := sd.card / 100
  other := sd.other / 100
  giftCard := sd.giftCard / 100
  fees := sd.fees / 100
  netTotal := sd.netTotal / 100

/-- The cents-level reference sum used to state the numeric claims: the sum
of `f` over the transactions of the batch that pass the status filter. -/
def centsSum (f : Payment → Int) (ps : List Payment) : Int :=
  ((ps.filter fun p => counted p).map f).sum

/-- A calendar date, fields ordered as in `MM/DD/YYYY`. -/
structure Date where
  month : Nat
  day : Nat
  year : Nat
deriving Repr, DecidableEq

/-- Gregorian leap-year rule (as in `datetime`). -/
def isLeapYear (y : Nat) : Bool :=
  (y % 4 == 0 && y % 100 != 0) || y % 400 == 0

/-- Number of days of month `m` of year `y` (months are 1-based). -/
def daysInMonth (y m : Nat) : Nat :=
  if m = 2 then (if isLeapYear y then 29 else 28)
  else if m = 4 ∨ m = 6 ∨ m = 9 ∨ m = 11 then 30
  else 31

/-- A date `datetime` accepts: month in 1..12, day in range for the month,
positive year. -/
def Date.valid (d : Date) : Prop :=
  1 ≤ d.month ∧ d.month ≤ 12 ∧ 1 ≤ d.day ∧ d.day ≤ daysInMonth d.year d.month ∧ 1 ≤ d.year

instance (d : Date) : Decidable d.valid := by
  unfold Date.valid
  infer_instance

/-- `date + datetime.timedelta(days=1)` on a valid date. -/
def dateSucc (d : Date) : Date :=
  if d.day < daysInMonth d.year d.month then ⟨d.month, d.day + 1, d.year⟩
  else if d.month < 12 then ⟨d.month + 1, 1, d.year⟩
  else ⟨1, 1, d.year + 1⟩

/-- Days in year `y` that precede month `m` (so `daysBeforeMonth y 1 = 0`). -/
def daysBeforeMonth (y : Nat) : Nat → Nat
  | 0 => 0
  | m + 1 => if m = 0 then 0 else daysBeforeMonth y m + daysInMonth y m

/-- Length of year `y` in days. -/
def daysInYear (y : Nat) : Nat := daysBeforeMonth y 13

/-- Days in all years before year `y`. -/
def daysBeforeYear : Nat → Nat
  | 0 => 0
  | y + 1 => daysBeforeYear y + daysInYear y

/-- Linear day number of a date (its index in the naive proleptic calendar),
the value `datetime.date.toordinal` computes up to a constant shift. -/
def dayNumber (d : Date) : Nat :=
  daysBeforeYear d.year + daysBeforeMonth d.year d.month + (d.day - 1)

/-- Milliseconds per day of naive `datetime` arithmetic. -/
def msPerDay : Nat := 86400000

/-- `pst.localize(datetime.datetime.combine(date, datetime.datetime.min.time())).isoformat()`:
the naive local midnight of `date`, in wall-clock milliseconds. -/
def first_midnight (d : Date) : Nat := dayNumber d * msPerDay

/-- `pst.localize(datetime.datetime.combine(date, min.time()) + timedelta(days=1)
- timedelta(milliseconds=1)).isoformat()`: one millisecond before the naive
local midnight of the following calendar day. -/
def last_midnight (d : Date) : Nat := dayNumber d * msPerDay + msPerDay - 1

/-- Membership of a wall-clock instant in the query window sent for one day
(Square treats both `begin_time` and `end_time` as inclusive bounds). -/
def inWindow (d : Date) (t : Nat) : Prop :=
  first_midnight d ≤ t ∧ t ≤ last_midnight d

instance (d : Date) (t : Nat) : Decidable (inWindow d t) := by
  unfold inWindow
  infer_instance

/-- Decimal digits of `n` (empty-pad helper for `strftime` below). -/
def natDigits (n : Nat) : List Char := Nat.toDigits 10 n

/-- Left-pad with `0` to width `w`. -/
def padZero (w : Nat) (s : List Char) : List Char :=
  List.replicate (w - s.length) '0' ++ s

/-- `date.strftime("%m/%d/%Y")`. -/
def strftimeMDY (d : Date) : String :=
  ⟨padZero 2 (natDigits d.month) ++ '/' :: padZero 2 (natDigits d.day) ++
    '/' :: padZero 4 (natDigits d.year)⟩

/-- `result.body and "payments" in result.body`, returning the payments list
when the guard passes. -/
def bodyPayments : Option ResponseBody → Option (List Payment)
  | none => none
  | some b => b.payments

/-- Accumulation performed for one follow-up response inside the `while`
loop: `if result.is_success(): if result.body and "payments" in result.body:
sum_sales(result.body["payments"])`. -/
def stepResult (ss : SalesData → List Payment → SalesData)
    (sd : SalesData) (r : SquareResult) : SalesData :=
  if r.is_success then
    match bodyPayments r.body with
    | some ps => ss sd ps
    | none => sd
  else sd

/-- The `while "cursor" in result.body` loop of `write_history`, with the
follow-up responses given by the oracle list, also recording the
`list_payments` requests it issues.  `none` marks a point the embedding
cannot follow: a response body of `None` at the loop test (Python raises
`TypeError` there) or an exhausted oracle while a cursor is still present
(the real loop would issue yet another request). -/
def pageLoop (ss : SalesData → List Payment → SalesData) (b e : Nat) :
    SalesData → SquareResult → List SquareResult →
    Option (SalesData × List ListPaymentsRequest)
  | sd, cur, [] =>
    match cur.body with
    | none => none
    | some bd =>
      match bd.cursor with
      | none => some (sd, [])
      | some _ => none
  | sd, cur, r :: rest =>
    match cur.body with
    | none => none
    | some bd =>
      match bd.cursor with
      | none => some (sd, [])
      | some c =>
        (pageLoop ss b e (stepResult ss sd r) r rest).map
          fun pr => (pr.1, ⟨b, e, some c⟩ :: pr.2)

/-- The body of the `for date in generate_date_range(...)` loop of
`write_history`, parameterised by the `sum_sales` variant: fetch the first
page, aggregate across the cursor pages, convert cents to dollars, set the
`Sales` column to the formatted date, and return the row to be written
together with the requests issued.  The oracle supplies the first response
and the responses to the cursor requests, in order. -/
def write_day (ss : SalesData → List Payment → SalesData) (date : Date)
    (first : SquareResult) (rest : List SquareResult) :
    Option (DailyRecord × List ListPaymentsRequest) :=
  let b := first_midnight date
  let e := last_midnight date
  let req0 : ListPaymentsRequest := ⟨b, e, none⟩
  let sd0 : SalesData := {}
  if first.is_success then
    match bodyPayments first.body with
    | some ps =>
      match pageLoop ss b e (ss sd0 ps) first rest with
      | none => none
      | some (sdF, reqs) =>
        some ({ sales := strftimeMDY date, metrics := convert_cents_to_usd sdF },
          req0 :: reqs)
    | none => some ({ sales := strftimeMDY date, metrics := sd0 }, [req0])
  else some ({ sales := strftimeMDY date, metrics := sd0 }, [req0])

/-- The whole dated loop of `write_history`: one row per date, each date
aggregated from its own response trace, in order; `none` once the processing
of some day raises. -/
def write_history (ss : SalesData → List Payment → SalesData)
    (oracle : Date → SquareResult × List SquareResult) (dates : List Date) :
    Option (List DailyRecord) :=
  dates.mapM fun d => (write_day ss d (oracle d).1 (oracle d).2).map Prod.fst

/-- A fully successful page: `is_success()` true, a `payments` list, and an
optional continuation cursor. -/
def okPage (ps : List Payment) (c : Option String) : SquareResult :=
  { is_success := true, body := some { payments := some ps, cursor := c } }

/-- Oracle trace of a multi-page day: the pages in `mids` each succeed and
carry a cursor, the final page `last` succeeds and carries none.  Returns
the first response and the follow-up response list. -/
def pagedResponses (mids : List (List Payment × String)) (last : List Payment) :
    SquareResult × List SquareResult :=
  match mids with
  | [] => (okPage last none, [])
  | (ps, c) :: t =>
      (okPage ps (some c),
       t.map (fun pc => okPage pc.1 (some pc.2)) ++ [okPage last none])

/-- The backward scan of `get_last_update_date`, one step per loop test of
`while pos > 0 and file.read(1) != '\n': pos -= 1; file.seek(pos)`.  The
first argument of the recursion is the Python variable `pos`, the second the
file pointer; on a read of a newline the loop exits with the pointer just
past it (the read consumed it), on `pos == 0` it exits with the pointer
wherever the last seek left it.  A read at or past the end of file returns
the empty string, which differs from a newline, so the scan continues. -/
def scanLoop (s : List Char) : Nat → Nat → Nat
  | 0, ptr => ptr
  | pos + 1, ptr =>
    if s[ptr]? = some '\n' then ptr + 1
    else scanLoop s pos pos

/-- `file.readline()` from a given pointer: the characters up to and
including the first newline, or up to the end of file. -/
def takeLine : List Char → List Char
  | [] => []
  | c :: cs => if c = '\n' then [c] else c :: takeLine cs

/-- Read one line starting at position `p`. -/
def readlineFrom (s : List Char) (p : Nat) : List Char :=
  takeLine (s.drop p)

/-- The whitespace set of Python `str.strip()` (ASCII part). -/
def isPySpace (c : Char) : Bool :=
  c = ' ' || c = '\t' || c = '\n' || c = '\r' || c = '\x0b' || c = '\x0c'

/-- Remove trailing whitespace. -/
def rstripChars (s : List Char) : List Char :=
  (s.reverse.dropWhile isPySpace).reverse

/-- Python `str.strip()`: remove whitespace at both ends. -/
def stripChars (s : List Char) : List Char :=
  (rstripChars s).dropWhile isPySpace

/-- `line.split(',')[0]`: the prefix before the first comma. -/
def firstField (s : List Char) : List Char :=
  s.takeWhile fun c => c ≠ ','

/-- Numeric value of a digit character. -/
def digitVal (c : Char) : Nat := c.toNat - '0'.toNat

/-- Parse a nonempty all-digit string. -/
def parseNatDigits (s : List Char) : Option Nat :=
  if s ≠ [] ∧ s.all fun c => c.isDigit then
    some (s.foldl (fun acc c => acc * 10 + digitVal c) 0)
  else none

/-- `datetime.datetime.strptime(text, "%m/%d/%Y")`: three slash-separated
digit groups (`%m` and `%d` take at most two digits, `%Y` at most four),
subject to the calendar validity checks `datetime` performs. -/
def strptimeMDY (s : List Char) : Option Date :=
  match s.splitOn '/' with
  | [ms, ds, ys] =>
    if ms.length ≤ 2 ∧ ds.length ≤ 2 ∧ ys.length ≤ 4 then
      match parseNatDigits ms, parseNatDigits ds, parseNatDigits ys with
      | some m, some d, some y =>
        if 1 ≤ m ∧ m ≤ 12 ∧ 1 ≤ d ∧ d ≤ daysInMonth y m ∧ 1 ≤ y then
          some ⟨m, d, y⟩
        else none
      | _, _, _ => none
    else none
  | _ => none

/-- `get_last_update_date` over the byte content of the ledger file: seek to
the end, scan backwards to the previous line boundary, read the last row,
parse its first column as `MM/DD/YYYY` and return the following date.
`none` stands for the exceptions Python raises on malformed content. -/
def get_last_update_date (s : List Char) : Option Date :=
  let ptr := scanLoop s (s.length - 1) s.length
  let line := readlineFrom s ptr
  let firstCol := firstField (stripChars line)
  (strptimeMDY firstCol).map dateSucc

/-- All transactions of a paged day, in arrival order: the pages of
`pagedResponses mids last` concatenated. -/
def allPayments (mids : List (List Payment × String)) (last : List Payment) :
    List Payment :=
  (mids.map Prod.fst).flatten ++ last

/-- Cents of `amount_money` summed over the counted transactions. -/
def centsGross : List Payment → Int :=
  centsSum fun p => optAmount p.amount_money

/-- Cents of `tip_money` summed over the counted transactions. -/
def centsTip : List Payment → Int :=
  centsSum fun p => optAmount p.tip_money

/-- Cents of `refunded_money` summed over the counted transactions. -/
def centsRefunded : List Payment → Int :=
  centsSum fun p => optAmount p.refunded_money

/-- Cents of `total_money` summed over the counted transactions. -/
def centsTotal : List Payment → Int :=
  centsSum fun p => optAmount p.total_money

/-- Cents of the first `processing_fee` line item summed over the counted
transactions (the code reads only index `[0]` of the list). -/
def centsFeeHead : List Payment → Int :=
  centsSum fun p => feeHeadAmount p.processing_fee

/-- Concrete test input: a COMPLETED payment of 1000 cents total carrying a
single 100-cent processing-fee line item. -/
def feePayment : Payment :=
  { status := "COMPLETED", total_money := some ⟨1000⟩, processing_fee := some [⟨⟨100⟩⟩] }

/-- Concrete test input: a COMPLETED payment of 1000 cents total carrying two
processing-fee line items, of 100 and of 200 cents. -/
def twoFeePayment : Payment :=
  { status := "COMPLETED", total_money := some ⟨1000⟩, processing_fee := some [⟨⟨100⟩⟩, ⟨⟨200⟩⟩] }

/-- Concrete test input: a COMPLETED payment of 100 cents gross and total. -/
def smallPayment : Payment :=
  { status := "COMPLETED", amount_money := some ⟨100⟩, total_money := some ⟨100⟩ }

/-- Concrete test input: a FAILED payment that must be filtered out. -/
def failedPayment : Payment :=
  { status := "FAILED", amount_money := some ⟨77⟩, total_money := some ⟨77⟩ }

/-! Helper lemmas. -/

theorem centsSum_nil (f : Payment → Int) : centsSum f [] = 0 := rfl

theorem centsSum_cons (f : Payment → Int) (p : Payment) (l : List Payment) :
    centsSum f (p :: l) = (if counted p then f p else 0) + centsSum f l := by
  by_cases h : counted p <;>
    simp [centsSum, List.filter_cons, h]

theorem su_foldl_sumStep_update (l : List Payment) (sd : SalesData) (a b c d : ℚ) :
    l.foldl sales_util.sumStep
      { sd with netSales := b, totalCollected := c, card := d, netTotal := a } =
    { l.foldl sales_util.sumStep sd with
      netSales := b, totalCollected := c, card := d, netTotal := a } := by
  induction l generalizing sd with
  | nil => rfl
  | cons p t ih =>
    show t.foldl _ _ = _
    rw [show sales_util.sumStep
          { sd with netSales := b, totalCollected := c, card := d, netTotal := a } p =
        { sales_util.sumStep sd p with
          netSales := b, totalCollected := c, card := d, netTotal := a } from by
      by_cases h : counted p <;> simp [sales_util.sumStep, h]]
    exact ih (sales_util.sumStep sd p)

theorem sdu_foldl_sumStep_update (l : List Payment) (sd : SalesData) (a b c d : ℚ) :
    l.foldl sales_data_util.sumStep
      { sd with netSales := b, totalCollected := c, card := d, netTotal := a } =
    { l.foldl sales_data_util.sumStep sd with
      netSales := b, totalCollected := c, card := d, netTotal := a } := by
  induction l generalizing sd with
  | nil => rfl
  | cons p t ih =>
    show t.foldl _ _ = _
    rw [show sales_data_util.sumStep
          { sd with netSales := b, totalCollected := c, card := d, netTotal := a } p =
        { sales_data_util.sumStep sd p with
          netSales := b, totalCollected := c, card := d, netTotal := a } from by
      by_cases h : counted p <;> simp [sales_data_util.sumStep, h]]
    exact ih (sales_data_util.sumStep sd p)

theorem su_sum_sales_append (sd : SalesData) (l1 l2 : List Payment) :
    sales_util.sum_sales (sales_util.sum_sales sd l1) l2 =
    sales_util.sum_sales sd (l1 ++ l2) := by
  show sales_util.sum_sales _ l2 = _
  unfold sales_util.sum_sales
  rw [su_foldl_sumStep_update, List.foldl_append]

theorem sdu_sum_sales_append (sd : SalesData) (l1 l2 : List Payment) :
    sales_data_util.sum_sales (sales_data_util.sum_sales sd l1) l2 =
    sales_data_util.sum_sales sd (l1 ++ l2) := by
  show sales_data_util.sum_sales _ l2 = _
  unfold sales_data_util.sum_sales
  rw [sdu_foldl_sumStep_update, List.foldl_append]

theorem su_foldl_sumStep_eq (l : List Payment) (sd : SalesData) :
    l.foldl sales_util.sumStep sd =
    { sd with
      grossSales := sd.grossSales + (centsSum (fun p => optAmount p.amount_money) l : ℚ)
      tip := sd.tip + (centsSum (fun p => optAmount p.tip_money) l : ℚ)
      refundsByAmount :=
        sd.refundsByAmount + (centsSum (fun p => optAmount p.refunded_money) l : ℚ)
      total := sd.total + (centsSum (fun p => optAmount p.total_money) l : ℚ)
      fees := sd.fees + (centsSum (fun p => feeHeadAmount p.processing_fee) l : ℚ) } := by
  induction l generalizing sd with
  | nil => simp [centsSum_nil]
  | cons p t ih =>
    show t.foldl _ _ = _
    rw [ih]
    by_cases h : counted p <;>
      simp [sales_util.sumStep, h, centsSum_cons] <;>
      refine ⟨by ring, by ring, by ring, by ring, by ring⟩

theorem sdu_foldl_sumStep_eq (l : List Payment) (sd : SalesData) :
    l.foldl sales_data_util.sumStep sd =
    { sd with
      grossSales := sd.grossSales + (centsSum (fun p => optAmount p.amount_money) l : ℚ)
      tip := sd.tip + (centsSum (fun p => optAmount p.tip_money) l : ℚ)
      refundsByAmount :=
        sd.refundsByAmount + (centsSum (fun p => optAmount p.refunded_money) l : ℚ)
      total := sd.total + (centsSum (fun p => optAmount p.total_money) l : ℚ)
      fees := sd.fees - (centsSum (fun p => feeHeadAmount p.processing_fee) l : ℚ) } := by
  induction l generalizing sd with
  | nil => simp [centsSum_nil]
  | cons p t ih =>
    show t.foldl _ _ = _
    rw [ih]
    by_cases h : counted p <;>
      simp [sales_data_util.sumStep, h, centsSum_cons] <;>
      refine ⟨by ring, by ring, by ring, by ring, by ring⟩

theorem pageLoop_inv (P : SalesData → Prop)
    (ss : SalesData → List Payment → SalesData)
    (hss : ∀ sd ps, P (ss sd ps)) (b e : Nat) :
    ∀ (rest : List SquareResult) (sd : SalesData) (cur : SquareResult)
      (res : SalesData × List ListPaymentsRequest),
      P sd → pageLoop ss b e sd cur rest = some res → P res.1 := by
  intro rest
  induction rest with
  | nil =>
    rintro sd ⟨suc, _ | ⟨pay, _ | c⟩⟩ res hP h
    · exact absurd h (by simp [pageLoop])
    · simp only [pageLoop, Option.some.injEq] at h
      rw [← h]
      exact hP
    · exact absurd h (by simp [pageLoop])
  | cons r rest ih =>
    rintro sd ⟨suc, _ | ⟨pay, _ | c⟩⟩ res hP h
    · exact absurd h (by simp [pageLoop])
    · simp only [pageLoop, Option.some.injEq] at h
      rw [← h]
      exact hP
    · simp only [pageLoop, Option.map_eq_some'] at h
      obtain ⟨pr, hpr, hres⟩ := h
      have hP' : P (stepResult ss sd r) := by
        unfold stepResult
        rcases r.is_success with _ | _
        · simpa using hP
        · rcases bodyPayments r.body with _ | ps
          · simpa using hP
          · simpa using hss sd ps
      have := ih (stepResult ss sd r) r pr hP' hpr
      rw [← hres]
      exact this

theorem write_day_inv (P : SalesData → Prop)
    (ss : SalesData → List Payment → SalesData)
    (hss : ∀ sd ps, P (ss sd ps)) (h0 : P {})
    (hconv : ∀ sd, P sd → P (convert_cents_to_usd sd))
    (date : Date) (first : SquareResult) (rest : List SquareResult)
    (rec : DailyRecord) (reqs : List ListPaymentsRequest)
    (h : write_day ss date first rest = some (rec, reqs)) : P rec.metrics := by
  simp only [write_day] at h
  split at h
  · split at h
    · split at h
      · exact absurd h (by simp)
      · rename_i ps hps x sdF reqs' hloop
        simp only [Option.some.injEq, Prod.mk.injEq] at h
        rw [← h.1]
        exact hconv _ (pageLoop_inv P ss hss _ _ rest _ _ _ (hss {} ps) hloop)
    · simp only [Option.some.injEq, Prod.mk.injEq] at h
      rw [← h.1]
      exact h0
  · simp only [Option.some.injEq, Prod.mk.injEq] at h
    rw [← h.1]
    exact h0

theorem stepResult_okPage (ss : SalesData → List Payment → SalesData)
    (sd : SalesData) (ps : List Payment) (c : Option String) :
    stepResult ss sd (okPage ps c) = ss sd ps := rfl

theorem pageLoop_okPage_cursor (ss : SalesData → List Payment → SalesData)
    (b e : Nat) (sd : SalesData) (ps : List Payment) (c : String)
    (r : SquareResult) (rest : List SquareResult) :
    pageLoop ss b e sd (okPage ps (some c)) (r :: rest) =
    (pageLoop ss b e (stepResult ss sd r) r rest).map
      fun pr => (pr.1, ⟨b, e, some c⟩ :: pr.2) := rfl

theorem pageLoop_okPage_last (ss : SalesData → List Payment → SalesData)
    (b e : Nat) (sd : SalesData) (ps : List Payment) (rest : List SquareResult) :
    pageLoop ss b e sd (okPage ps none) rest = some (sd, []) := by
  cases rest <;> rfl

theorem pageLoop_okTrace (ss : SalesData → List Payment → SalesData)
    (happ : ∀ sd l1 l2, ss (ss sd l1) l2 = ss sd (l1 ++ l2)) (b e : Nat) :
    ∀ (mids : List (List Payment × String)) (last : List Payment)
      (sd : SalesData) (ps : List Payment) (c : String),
      pageLoop ss b e sd (okPage ps (some c))
        (mids.map (fun pc => okPage pc.1 (some pc.2)) ++ [okPage last none]) =
      some (ss sd ((mids.map Prod.fst).flatten ++ last),
        ⟨b, e, some c⟩ ::
          mids.map fun pc => (⟨b, e, some pc.2⟩ : ListPaymentsRequest)) := by
  intro mids
  induction mids with
  | nil =>
    intro last sd ps c
    simp only [List.map_nil, List.nil_append]
    rw [pageLoop_okPage_cursor, stepResult_okPage, pageLoop_okPage_last]
    simp
  | cons hd t ih =>
    intro last sd ps c
    obtain ⟨ps1, c1⟩ := hd
    simp only [List.map_cons, List.cons_append]
    rw [pageLoop_okPage_cursor, stepResult_okPage, ih last (ss sd ps1) ps1 c1]
    simp only [Option.map_some']
    rw [happ]
    simp [List.append_assoc]

theorem write_day_okFirst (ss : SalesData → List Payment → SalesData) (d : Date)
    (ps : List Payment) (c : Option String) (rest : List SquareResult) :
    write_day ss d (okPage ps c) rest =
    match pageLoop ss (first_midnight d) (last_midnight d) (ss {} ps)
        (okPage ps c) rest with
    | none => none
    | some (sdF, reqs) =>
      some ({ sales := strftimeMDY d, metrics := convert_cents_to_usd sdF },
        ⟨first_midnight d, last_midnight d, none⟩ :: reqs) := rfl

theorem write_day_okTrace (ss : SalesData → List Payment → SalesData)
    (happ : ∀ sd l1 l2, ss (ss sd l1) l2 = ss sd (l1 ++ l2))
    (mids : List (List Payment × String)) (last : List Payment) (d : Date) :
    write_day ss d (pagedResponses mids last).1 (pagedResponses mids last).2 =
    some ({ sales := strftimeMDY d,
            metrics := convert_cents_to_usd
              (ss {} ((mids.map Prod.fst).flatten ++ last)) },
      ⟨first_midnight d, last_midnight d, none⟩ ::
        mids.map fun pc =>
          (⟨first_midnight d, last_midnight d, some pc.2⟩ : ListPaymentsRequest)) := by
  cases mids with
  | nil =>
    rw [show (pagedResponses [] last).1 = okPage last none from rfl,
      show (pagedResponses [] last).2 = [] from rfl]
    rw [write_day_okFirst, pageLoop_okPage_last]
    simp
  | cons hd t =>
    obtain ⟨ps0, c0⟩ := hd
    rw [show (pagedResponses ((ps0, c0) :: t) last).1 = okPage ps0 (some c0) from rfl,
      show (pagedResponses ((ps0, c0) :: t) last).2 =
        t.map (fun pc => okPage pc.1 (some pc.2)) ++ [okPage last none] from rfl]
    rw [write_day_okFirst, pageLoop_okTrace ss happ _ _ t last (ss {} ps0) ps0 c0]
    rw [happ]
    simp [List.append_assoc]

/-- C1: for a day whose payments arrive over several pages, each successful
response except the last carrying a cursor, `write_history` re-issues
`list_payments` with the cursor and the same window bounds and keeps
accumulating, so the emitted row aggregates the transactions of all pages
(their concatenation), not only the first page — for the `write_history` of
`sales_util.py` and of `sales_data_util.py` alike. -/
theorem C1_pagination_completeness
    (mids : List (List Payment × String)) (last : List Payment) (d : Date) :
    (write_day sales_util.sum_sales d
        (pagedResponses mids last).1 (pagedResponses mids last).2 =
      some ({ sales := strftimeMDY d,
              metrics := convert_cents_to_usd
                (sales_util.sum_sales {} ((mids.map Prod.fst).flatten ++ last)) },
        ⟨first_midnight d, last_midnight d, none⟩ ::
          mids.map fun pc =>
            (⟨first_midnight d, last_midnight d, some pc.2⟩ : ListPaymentsRequest))) ∧
    (write_day sales_data_util.sum_sales d
        (pagedResponses mids last).1 (pagedResponses mids last).2 =
      some ({ sales := strftimeMDY d,
              metrics := convert_cents_to_usd
                (sales_data_util.sum_sales {} ((mids.map Prod.fst).flatten ++ last)) },
        ⟨first_midnight d, last_midnight d, none⟩ ::
          mids.map fun pc =>
            (⟨first_midnight d, last_midnight d, some pc.2⟩ : ListPaymentsRequest))) :=
  ⟨write_day_okTrace sales_util.sum_sales su_sum_sales_append mids last d,
   write_day_okTrace sales_data_util.sum_sales sdu_sum_sales_append mids last d⟩

theorem su_day_metrics (A : List Payment) :
    convert_cents_to_usd (sales_util.sum_sales {} A) =
    { grossSales := (centsGross A : ℚ) / 100
      returns := ((0 : Int) : ℚ) / 100
      discountsComps := ((0 : Int) : ℚ) / 100
      netSales := ((centsGross A - centsRefunded A : Int) : ℚ) / 100
      giftCardSales := ((0 : Int) : ℚ) / 100
      tax := ((0 : Int) : ℚ) / 100
      tip := (centsTip A : ℚ) / 100
      refundsByAmount := (centsRefunded A : ℚ) / 100
      total := (centsTotal A : ℚ) / 100
      totalCollected := (centsTotal A : ℚ) / 100
      cash := ((0 : Int) : ℚ) / 100
      card := (centsTotal A : ℚ) / 100
      other := ((0 : Int) : ℚ) / 100
      giftCard := ((0 : Int) : ℚ) / 100
      fees := (centsFeeHead A : ℚ) / 100
      netTotal := ((centsTotal A - centsFeeHead A : Int) : ℚ) / 100 } := by
  simp only [sales_util.sum_sales, su_foldl_sumStep_eq, convert_cents_to_usd,
    centsGross, centsTip, centsRefunded, centsTotal, centsFeeHead,
    SalesData.mk.injEq]
  norm_num

theorem sdu_day_metrics (A : List Payment) :
    convert_cents_to_usd (sales_data_util.sum_sales {} A) =
    { grossSales := (centsGross A : ℚ) / 100
      returns := ((0 : Int) : ℚ) / 100
      discountsComps := ((0 : Int) : ℚ) / 100
      netSales := ((centsGross A - centsRefunded A : Int) : ℚ) / 100
      giftCardSales := ((0 : Int) : ℚ) / 100
      tax := ((0 : Int) : ℚ) / 100
      tip := (centsTip A : ℚ) / 100
      refundsByAmount := (centsRefunded A : ℚ) / 100
      total := (centsTotal A : ℚ) / 100
      totalCollected := (centsTotal A : ℚ) / 100
      cash := ((0 : Int) : ℚ) / 100
      card := (centsTotal A : ℚ) / 100
      other := ((0 : Int) : ℚ) / 100
      giftCard := ((0 : Int) : ℚ) / 100
      fees := ((-centsFeeHead A : Int) : ℚ) / 100
      netTotal := ((centsTotal A - centsFeeHead A : Int) : ℚ) / 100 } := by
  simp only [sales_data_util.sum_sales, sdu_foldl_sumStep_eq, convert_cents_to_usd,
    centsGross, centsTip, centsRefunded, centsTotal, centsFeeHead,
    SalesData.mk.injEq]
  norm_num
  ring

/-- C2: every monetary column of the row emitted for a paged day is the
integer-cent sum of that column over the counted transactions of all pages,
divided by 100 exactly once after the last page — never divided per
transaction — in both `sales_util.py` and `sales_data_util.py` (whose `Fees`
accumulators carry opposite signs). -/
theorem C2_cents_round_trip
    (mids : List (List Payment × String)) (last : List Payment) (d : Date) :
    ((write_day sales_util.sum_sales d
        (pagedResponses mids last).1 (pagedResponses mids last).2).map
      fun x => x.1.metrics) =
      some
      { grossSales := (centsGross (allPayments mids last) : ℚ) / 100
        returns := ((0 : Int) : ℚ) / 100
        discountsComps := ((0 : Int) : ℚ) / 100
        netSales :=
          ((centsGross (allPayments mids last) -
            centsRefunded (allPayments mids last) : Int) : ℚ) / 100
        giftCardSales := ((0 : Int) : ℚ) / 100
        tax := ((0 : Int) : ℚ) / 100
        tip := (centsTip (allPayments mids last) : ℚ) / 100
        refundsByAmount := (centsRefunded (allPayments mids last) : ℚ) / 100
        total := (centsTotal (allPayments mids last) : ℚ) / 100
        totalCollected := (centsTotal (allPayments mids last) : ℚ) / 100
        cash := ((0 : Int) : ℚ) / 100
        card := (centsTotal (allPayments mids last) : ℚ) / 100
        other := ((0 : Int) : ℚ) / 100
        giftCard := ((0 : Int) : ℚ) / 100
        fees := (centsFeeHead (allPayments mids last) : ℚ) / 100
        netTotal :=
          ((centsTotal (allPayments mids last) -
            centsFeeHead (allPayments mids last) : Int) : ℚ) / 100 } ∧
    ((write_day sales_data_util.sum_sales d
        (pagedResponses mids last).1 (pagedResponses mids last).2).map
      fun x => x.1.metrics) =
      some
      { grossSales := (centsGross (allPayments mids last) : ℚ) / 100
        returns := ((0 : Int) : ℚ) / 100
        discountsComps := ((0 : Int) : ℚ) / 100
        netSales :=
          ((centsGross (allPayments mids last) -
            centsRefunded (allPayments mids last) : Int) : ℚ) / 100
        giftCardSales := ((0 : Int) : ℚ) / 100
        tax := ((0 : Int) : ℚ) / 100
        tip := (centsTip (allPayments mids last) : ℚ) / 100
        refundsByAmount := (centsRefunded (allPayments mids last) : ℚ) / 100
        total := (centsTotal (allPayments mids last) : ℚ) / 100
        totalCollected := (centsTotal (allPayments mids last) : ℚ) / 100
        cash := ((0 : Int) : ℚ) / 100
        card := (centsTotal (allPayments mids last) : ℚ) / 100
        other := ((0 : Int) : ℚ) / 100
        giftCard := ((0 : Int) : ℚ) / 100
        fees := ((-centsFeeHead (allPayments mids last) : Int) : ℚ) / 100
        netTotal :=
          ((centsTotal (allPayments mids last) -
            centsFeeHead (allPayments mids last) : Int) : ℚ) / 100 } := by
  constructor
  · rw [write_day_okTrace sales_util.sum_sales su_sum_sales_append mids last d]
    simp only [Option.map_some']
    exact congrArg some (su_day_metrics (allPayments mids last))
  · rw [write_day_okTrace sales_data_util.sum_sales sdu_sum_sales_append mids last d]
    simp only [Option.map_some']
    exact congrArg some (sdu_day_metrics (allPayments mids last))

/-- C3: every emitted row satisfies `Net Sales = Gross Sales - Refunds by
Amount` and `Total Collected = Card = Total` exactly, whatever the input
transactions, in both variants of the pipeline. -/
theorem C3_invariant_preservation :
    (∀ (d : Date) (first : SquareResult) (rest : List SquareResult)
      (rec : DailyRecord) (reqs : List ListPaymentsRequest),
      write_day sales_util.sum_sales d first rest = some (rec, reqs) →
      rec.metrics.netSales = rec.metrics.grossSales - rec.metrics.refundsByAmount ∧
      rec.metrics.totalCollected = rec.metrics.card ∧
      rec.metrics.card = rec.metrics.total) ∧
    (∀ (d : Date) (first : SquareResult) (rest : List SquareResult)
      (rec : DailyRecord) (reqs : List ListPaymentsRequest),
      write_day sales_data_util.sum_sales d first rest = some (rec, reqs) →
      rec.metrics.netSales = rec.metrics.grossSales - rec.metrics.refundsByAmount ∧
      rec.metrics.totalCollected = rec.metrics.card ∧
      rec.metrics.card = rec.metrics.total) := by
  constructor
  · intro d first rest rec reqs h
    refine write_day_inv
      (fun sd => sd.netSales = sd.grossSales - sd.refundsByAmount ∧
        sd.totalCollected = sd.card ∧ sd.card = sd.total)
      sales_util.sum_sales (fun sd ps => ⟨rfl, rfl, rfl⟩) (by norm_num)
      ?_ d first rest rec reqs h
    rintro sd ⟨h1, h2, h3⟩
    refine ⟨?_, ?_, ?_⟩ <;> simp [convert_cents_to_usd, h1, h2, h3] <;> ring
  · intro d first rest rec reqs h
    refine write_day_inv
      (fun sd => sd.netSales = sd.grossSales - sd.refundsByAmount ∧
        sd.totalCollected = sd.card ∧ sd.card = sd.total)
      sales_data_util.sum_sales (fun sd ps => ⟨rfl, rfl, rfl⟩) (by norm_num)
      ?_ d first rest rec reqs h
    rintro sd ⟨h1, h2, h3⟩
    refine ⟨?_, ?_, ?_⟩ <;> simp [convert_cents_to_usd, h1, h2, h3] <;> ring

/-- Witness for C3 at a concrete one-page trace. -/
theorem C3_witness :
    write_day sales_util.sum_sales ⟨1, 2, 2024⟩
      (okPage [{ status := "COMPLETED", total_money := some ⟨600⟩ }] none) [] =
      some ({ sales := strftimeMDY ⟨1, 2, 2024⟩,
              metrics := convert_cents_to_usd (sales_util.sum_sales {}
                [{ status := "COMPLETED", total_money := some ⟨600⟩ }]) },
        [⟨first_midnight ⟨1, 2, 2024⟩, last_midnight ⟨1, 2, 2024⟩, none⟩]) ∧
    ((convert_cents_to_usd (sales_util.sum_sales {}
        [{ status := "COMPLETED", total_money := some ⟨600⟩ }])).netSales =
      (convert_cents_to_usd (sales_util.sum_sales {}
        [{ status := "COMPLETED", total_money := some ⟨600⟩ }])).grossSales -
      (convert_cents_to_usd (sales_util.sum_sales {}
        [{ status := "COMPLETED", total_money := some ⟨600⟩ }])).refundsByAmount ∧
     (convert_cents_to_usd (sales_util.sum_sales {}
        [{ status := "COMPLETED", total_money := some ⟨600⟩ }])).totalCollected =
      (convert_cents_to_usd (sales_util.sum_sales {}
        [{ status := "COMPLETED", total_money := some ⟨600⟩ }])).card ∧
     (convert_cents_to_usd (sales_util.sum_sales {}
        [{ status := "COMPLETED", total_money := some ⟨600⟩ }])).card =
      (convert_cents_to_usd (sales_util.sum_sales {}
        [{ status := "COMPLETED", total_money := some ⟨600⟩ }])).total) :=
  have h : write_day sales_util.sum_sales ⟨1, 2, 2024⟩
      (okPage [{ status := "COMPLETED", total_money := some ⟨600⟩ }] none) [] =
      some ({ sales := strftimeMDY ⟨1, 2, 2024⟩,
              metrics := convert_cents_to_usd (sales_util.sum_sales {}
                [{ status := "COMPLETED", total_money := some ⟨600⟩ }]) },
        [⟨first_midnight ⟨1, 2, 2024⟩, last_midnight ⟨1, 2, 2024⟩, none⟩]) := rfl
  ⟨h, C3_invariant_preservation.1 _ _ _ _ _ h⟩

/-- C4 counterexample: for the row `sales_util.py` emits from a single
COMPLETED payment with `total_money` 1000 and a 100-cent processing fee,
`Net Total` is 9 while `Total + Fees` is 11, so `Net Total = Total + Fees`
fails on that variant (it computes `Net Total = Total - Fees`). -/
theorem C4_counterexample :
    ((write_day sales_util.sum_sales ⟨1, 2, 2024⟩ (okPage [feePayment] none) []).map
      fun x => (x.1.metrics.netTotal, x.1.metrics.total, x.1.metrics.fees)) =
      some (9, 10, 1) ∧ (9 : ℚ) ≠ 10 + 1 := by
  have h : write_day sales_util.sum_sales ⟨1, 2, 2024⟩ (okPage [feePayment] none) [] =
      some ({ sales := strftimeMDY ⟨1, 2, 2024⟩,
              metrics := convert_cents_to_usd (sales_util.sum_sales {} [feePayment]) },
        [⟨first_midnight ⟨1, 2, 2024⟩, last_midnight ⟨1, 2, 2024⟩, none⟩]) := rfl
  rw [h]
  constructor
  · simp only [Option.map_some', Option.some.injEq, Prod.mk.injEq]
    norm_num [sales_util.sum_sales, sales_util.sumStep, convert_cents_to_usd,
      feePayment, counted, optAmount, feeHeadAmount]
  · norm_num

/-- C4 amended: `Net Total = Total + Fees` holds for every row emitted by the
`sales_data_util.py` variant (whose `Fees` accumulator is negated), while the
`sales_util.py` variant satisfies `Net Total = Total - Fees` instead (its
`Fees` accumulator is positive). -/
theorem C4_net_total_invariant :
    (∀ (d : Date) (first : SquareResult) (rest : List SquareResult)
      (rec : DailyRecord) (reqs : List ListPaymentsRequest),
      write_day sales_data_util.sum_sales d first rest = some (rec, reqs) →
      rec.metrics.netTotal = rec.metrics.total + rec.metrics.fees) ∧
    (∀ (d : Date) (first : SquareResult) (rest : List SquareResult)
      (rec : DailyRecord) (reqs : List ListPaymentsRequest),
      write_day sales_util.sum_sales d first rest = some (rec, reqs) →
      rec.metrics.netTotal = rec.metrics.total - rec.metrics.fees) := by
  constructor
  · intro d first rest rec reqs h
    refine write_day_inv (fun sd => sd.netTotal = sd.total + sd.fees)
      sales_data_util.sum_sales (fun sd ps => rfl) (by norm_num)
      ?_ d first rest rec reqs h
    intro sd h1
    simp [convert_cents_to_usd, h1]
    ring
  · intro d first rest rec reqs h
    refine write_day_inv (fun sd => sd.netTotal = sd.total - sd.fees)
      sales_util.sum_sales (fun sd ps => rfl) (by norm_num)
      ?_ d first rest rec reqs h
    intro sd h1
    simp [convert_cents_to_usd, h1]
    ring

/-- Witness for C4 at a concrete one-page trace of the
`sales_data_util.py` variant. -/
theorem C4_witness :
    write_day sales_data_util.sum_sales ⟨1, 2, 2024⟩ (okPage [feePayment] none) [] =
      some ({ sales := strftimeMDY ⟨1, 2, 2024⟩,
              metrics := convert_cents_to_usd (sales_data_util.sum_sales {} [feePayment]) },
        [⟨first_midnight ⟨1, 2, 2024⟩, last_midnight ⟨1, 2, 2024⟩, none⟩]) ∧
    (convert_cents_to_usd (sales_data_util.sum_sales {} [feePayment])).netTotal =
      (convert_cents_to_usd (sales_data_util.sum_sales {} [feePayment])).total +
      (convert_cents_to_usd (sales_data_util.sum_sales {} [feePayment])).fees :=
  have h : write_day sales_data_util.sum_sales ⟨1, 2, 2024⟩
      (okPage [feePayment] none) [] =
      some ({ sales := strftimeMDY ⟨1, 2, 2024⟩,
              metrics := convert_cents_to_usd (sales_data_util.sum_sales {} [feePayment]) },
        [⟨first_midnight ⟨1, 2, 2024⟩, last_midnight ⟨1, 2, 2024⟩, none⟩]) := rfl
  ⟨h, C4_net_total_invariant.1 _ _ _ _ _ h⟩

/-- C5 counterexample: for a COMPLETED payment carrying two processing-fee
line items of 100 and 200 cents, the `Fees` accumulator picks up only the
first (100), not the sum over every line item (300), in both variants. -/
theorem C5_counterexample :
    (sales_util.sum_sales {} [twoFeePayment]).fees = 100 ∧
    (100 : ℚ) ≠ 100 + 200 ∧
    (sales_data_util.sum_sales {} [twoFeePayment]).fees = -100 ∧
    (-100 : ℚ) ≠ -(100 + 200) := by
  refine ⟨?_, by norm_num, ?_, by norm_num⟩ <;>
    norm_num [sales_util.sum_sales, sales_util.sumStep, sales_data_util.sum_sales,
      sales_data_util.sumStep, twoFeePayment, counted, feeHeadAmount]

/-- C5 amended: for a counted transaction whose `processing_fee` list is
present and nonempty, the `Fees` accumulation incorporates exactly the amount
of the first line item (`processing_fee[0]`), ignoring every further line item;
a transaction with no `processing_fee` key contributes zero to `Fees`. -/
theorem C5_fees_first_line_item_only :
    (∀ (sd : SalesData) (p : Payment) (f : ProcessingFee) (fs : List ProcessingFee),
      counted p = true → p.processing_fee = some (f :: fs) →
      (sales_util.sumStep sd p).fees = sd.fees + f.amount_money.amount ∧
      (sales_data_util.sumStep sd p).fees = sd.fees - f.amount_money.amount) ∧
    (∀ (sd : SalesData) (p : Payment),
      counted p = true → p.processing_fee = none →
      (sales_util.sumStep sd p).fees = sd.fees ∧
      (sales_data_util.sumStep sd p).fees = sd.fees) := by
  constructor
  · intro sd p f fs hc hp
    constructor <;>
      simp [sales_util.sumStep, sales_data_util.sumStep, hc, hp, feeHeadAmount]
  · intro sd p hc hp
    constructor <;>
      simp [sales_util.sumStep, sales_data_util.sumStep, hc, hp, feeHeadAmount]

/-- Witness for C5 at the concrete two-line-item payment. -/
theorem C5_witness :
    counted twoFeePayment = true ∧
    twoFeePayment.processing_fee = some [⟨⟨100⟩⟩, ⟨⟨200⟩⟩] ∧
    (sales_util.sumStep {} twoFeePayment).fees =
      (({} : SalesData)).fees + (⟨⟨100⟩⟩ : ProcessingFee).amount_money.amount ∧
    (sales_data_util.sumStep {} twoFeePayment).fees =
      (({} : SalesData)).fees - (⟨⟨100⟩⟩ : ProcessingFee).amount_money.amount :=
  have h := C5_fees_first_line_item_only.1 {} twoFeePayment ⟨⟨100⟩⟩ [⟨⟨200⟩⟩] rfl rfl
  ⟨rfl, rfl, h.1, h.2⟩

/-- C6: a transaction whose status is neither COMPLETED nor APPROVED
contributes nothing: dropping it from its batch leaves both the `sum_sales`
aggregate and the emitted row unchanged, in both variants. -/
theorem C6_status_filter
    (p : Payment) (h1 : p.status ≠ "COMPLETED") (h2 : p.status ≠ "APPROVED")
    (l1 l2 : List Payment) (sd : SalesData) (d : Date) :
    (sales_util.sum_sales sd (l1 ++ p :: l2) = sales_util.sum_sales sd (l1 ++ l2) ∧
     sales_data_util.sum_sales sd (l1 ++ p :: l2) =
       sales_data_util.sum_sales sd (l1 ++ l2)) ∧
    (write_day sales_util.sum_sales d (okPage (l1 ++ p :: l2) none) [] =
       write_day sales_util.sum_sales d (okPage (l1 ++ l2) none) [] ∧
     write_day sales_data_util.sum_sales d (okPage (l1 ++ p :: l2) none) [] =
       write_day sales_data_util.sum_sales d (okPage (l1 ++ l2) none) []) := by
  have hc : counted p = false := by
    simp [counted, h1, h2]
  have hsu : ∀ s : SalesData,
      (l1 ++ p :: l2).foldl sales_util.sumStep s = (l1 ++ l2).foldl sales_util.sumStep s := by
    intro s
    rw [List.foldl_append, List.foldl_append, List.foldl_cons,
      show sales_util.sumStep (l1.foldl sales_util.sumStep s) p =
        l1.foldl sales_util.sumStep s from by simp [sales_util.sumStep, hc]]
  have hsdu : ∀ s : SalesData,
      (l1 ++ p :: l2).foldl sales_data_util.sumStep s =
        (l1 ++ l2).foldl sales_data_util.sumStep s := by
    intro s
    rw [List.foldl_append, List.foldl_append, List.foldl_cons,
      show sales_data_util.sumStep (l1.foldl sales_data_util.sumStep s) p =
        l1.foldl sales_data_util.sumStep s from by simp [sales_data_util.sumStep, hc]]
  have hsum1 : sales_util.sum_sales sd (l1 ++ p :: l2) =
      sales_util.sum_sales sd (l1 ++ l2) := by
    unfold sales_util.sum_sales
    rw [hsu]
  have hsum2 : sales_data_util.sum_sales sd (l1 ++ p :: l2) =
      sales_data_util.sum_sales sd (l1 ++ l2) := by
    unfold sales_data_util.sum_sales
    rw [hsdu]
  refine ⟨⟨hsum1, hsum2⟩, ?_, ?_⟩
  · rw [write_day_okFirst, write_day_okFirst, pageLoop_okPage_last, pageLoop_okPage_last]
    have : sales_util.sum_sales {} (l1 ++ p :: l2) = sales_util.sum_sales {} (l1 ++ l2) := by
      unfold sales_util.sum_sales
      rw [hsu]
    rw [this]
  · rw [write_day_okFirst, write_day_okFirst, pageLoop_okPage_last, pageLoop_okPage_last]
    have : sales_data_util.sum_sales {} (l1 ++ p :: l2) =
        sales_data_util.sum_sales {} (l1 ++ l2) := by
      unfold sales_data_util.sum_sales
      rw [hsdu]
    rw [this]

/-- Witness for C6 at a concrete FAILED payment inside a batch. -/
theorem C6_witness :
    failedPayment.status ≠ "COMPLETED" ∧ failedPayment.status ≠ "APPROVED" ∧
    sales_util.sum_sales {} ([] ++ failedPayment :: [smallPayment]) =
      sales_util.sum_sales {} ([] ++ [smallPayment]) :=
  ⟨by decide, by decide,
    ((C6_status_filter failedPayment (by decide) (by decide) [] [smallPayment]
      {} ⟨1, 2, 2024⟩).1).1⟩

/-- C7 counterexample: when the first page succeeds with a 100-cent payment
and a cursor and the second page request fails, the emitted row carries the
partial totals (`Total` is 1 dollar), not the zero defaults the claim
asserts for any failing page request. -/
theorem C7_counterexample :
    ((write_day sales_util.sum_sales ⟨1, 2, 2024⟩ (okPage [smallPayment] (some "c"))
        [⟨false, some ⟨none, none⟩⟩]).map fun x => x.1.metrics.total) = some 1 ∧
    (1 : ℚ) ≠ 0 := by
  have h : write_day sales_util.sum_sales ⟨1, 2, 2024⟩ (okPage [smallPayment] (some "c"))
      [⟨false, some ⟨none, none⟩⟩] =
      some ({ sales := strftimeMDY ⟨1, 2, 2024⟩,
              metrics := convert_cents_to_usd (sales_util.sum_sales {} [smallPayment]) },
        [⟨first_midnight ⟨1, 2, 2024⟩, last_midnight ⟨1, 2, 2024⟩, none⟩,
         ⟨first_midnight ⟨1, 2, 2024⟩, last_midnight ⟨1, 2, 2024⟩, some "c"⟩]) := rfl
  rw [h]
  constructor
  · simp only [Option.map_some', Option.some.injEq]
    norm_num [sales_util.sum_sales, sales_util.sumStep, convert_cents_to_usd,
      smallPayment, counted, optAmount, feeHeadAmount]
  · norm_num

/-- C7 amended: when the FIRST page request of a day fails or returns
non-success, the row is still emitted, with every computed monetary field at
its zero default and the `Sales` field set to the `MM/DD/YYYY` date; the
dated loop then continues with the following days.  (A later page failure
instead leaves the partial totals in the row.) -/
theorem C7_fetch_failure_yields_zero_day :
    (∀ (ss : SalesData → List Payment → SalesData) (d : Date)
      (first : SquareResult) (rest : List SquareResult),
      first.is_success = false →
      write_day ss d first rest =
        some ({ sales := strftimeMDY d, metrics := {} },
          [⟨first_midnight d, last_midnight d, none⟩])) ∧
    (∀ (ss : SalesData → List Payment → SalesData)
      (oracle : Date → SquareResult × List SquareResult) (d : Date) (ds : List Date),
      (oracle d).1.is_success = false →
      write_history ss oracle (d :: ds) =
        (write_history ss oracle ds).map
          (List.cons { sales := strftimeMDY d, metrics := {} })) := by
  have part1 : ∀ (ss : SalesData → List Payment → SalesData) (d : Date)
      (first : SquareResult) (rest : List SquareResult),
      first.is_success = false →
      write_day ss d first rest =
        some ({ sales := strftimeMDY d, metrics := {} },
          [⟨first_midnight d, last_midnight d, none⟩]) := by
    intro ss d first rest h
    simp [write_day, h]
  refine ⟨part1, ?_⟩
  intro ss oracle d ds h
  unfold write_history
  rw [List.mapM_cons, part1 ss d (oracle d).1 (oracle d).2 h]
  cases hm : ds.mapM fun d => (write_day ss d (oracle d).1 (oracle d).2).map Prod.fst <;>
    simp [Option.bind, hm]

/-- Witness for C7 at a concrete failed first response followed by one
further day. -/
theorem C7_witness :
    (SquareResult.mk false (some ⟨none, none⟩)).is_success = false ∧
    write_day sales_util.sum_sales ⟨1, 2, 2024⟩
      (SquareResult.mk false (some ⟨none, none⟩)) [] =
      some ({ sales := strftimeMDY ⟨1, 2, 2024⟩, metrics := {} },
        [⟨first_midnight ⟨1, 2, 2024⟩, last_midnight ⟨1, 2, 2024⟩, none⟩]) :=
  ⟨rfl, C7_fetch_failure_yields_zero_day.1 sales_util.sum_sales ⟨1, 2, 2024⟩
    (SquareResult.mk false (some ⟨none, none⟩)) [] rfl⟩

/-- C10: if the first page succeeds but a later cursor page fails with a
cursor-free body, the emitted row holds the partial totals of the
successfully fetched pages converted to dollars (not zeros); the only exit
of the `while` loop is a response body without a cursor, and a failed response
whose body still carries a cursor makes the loop issue another request with
exactly that cursor, accumulating nothing from the failed response. -/
theorem C10_partial_totals_and_cursor_driven_loop :
    (∀ (ss : SalesData → List Payment → SalesData) (d : Date) (ps1 : List Payment)
      (c1 : String) (bp : Option (List Payment)),
      write_day ss d (okPage ps1 (some c1)) [⟨false, some ⟨bp, none⟩⟩] =
        some ({ sales := strftimeMDY d, metrics := convert_cents_to_usd (ss {} ps1) },
          [⟨first_midnight d, last_midnight d, none⟩,
           ⟨first_midnight d, last_midnight d, some c1⟩])) ∧
    (∀ (ss : SalesData → List Payment → SalesData) (b e : Nat) (sd : SalesData)
      (suc : Bool) (pay : Option (List Payment)) (rest : List SquareResult),
      pageLoop ss b e sd ⟨suc, some ⟨pay, none⟩⟩ rest = some (sd, [])) ∧
    (∀ (ss : SalesData → List Payment → SalesData) (b e : Nat) (sd : SalesData)
      (suc : Bool) (pay : Option (List Payment)) (c : String)
      (r : SquareResult) (rest : List SquareResult),
      r.is_success = false →
      pageLoop ss b e sd ⟨suc, some ⟨pay, some c⟩⟩ (r :: rest) =
        (pageLoop ss b e sd r rest).map fun pr => (pr.1, ⟨b, e, some c⟩ :: pr.2)) := by
  refine ⟨fun ss d ps1 c1 bp => rfl, fun ss b e sd suc pay rest => ?_, ?_⟩
  · cases rest <;> rfl
  · intro ss b e sd suc pay c r rest h
    rw [show pageLoop ss b e sd ⟨suc, some ⟨pay, some c⟩⟩ (r :: rest) =
      (pageLoop ss b e (stepResult ss sd r) r rest).map
        fun pr => (pr.1, ⟨b, e, some c⟩ :: pr.2) from rfl]
    rw [show stepResult ss sd r = sd from by simp [stepResult, h]]

/-- Witness for C10 at concrete traces. -/
theorem C10_witness :
    write_day sales_util.sum_sales ⟨1, 2, 2024⟩ (okPage [smallPayment] (some "c1"))
      [⟨false, some ⟨none, none⟩⟩] =
      some ({ sales := strftimeMDY ⟨1, 2, 2024⟩,
              metrics := convert_cents_to_usd (sales_util.sum_sales {} [smallPayment]) },
        [⟨first_midnight ⟨1, 2, 2024⟩, last_midnight ⟨1, 2, 2024⟩, none⟩,
         ⟨first_midnight ⟨1, 2, 2024⟩, last_midnight ⟨1, 2, 2024⟩, some "c1"⟩]) ∧
    (SquareResult.mk false (some ⟨none, some "c2"⟩)).is_success = false ∧
    pageLoop sales_util.sum_sales 0 0 {} ⟨true, some ⟨none, some "c1"⟩⟩
      [⟨false, some ⟨none, some "c2"⟩⟩] =
      (pageLoop sales_util.sum_sales 0 0 {} ⟨false, some ⟨none, some "c2"⟩⟩ []).map
        fun pr => (pr.1, ⟨0, 0, some "c1"⟩ :: pr.2) :=
  ⟨C10_partial_totals_and_cursor_driven_loop.1 sales_util.sum_sales
      ⟨1, 2, 2024⟩ [smallPayment] "c1" none,
   rfl,
   C10_partial_totals_and_cursor_driven_loop.2.2 sales_util.sum_sales 0 0 {} true
     none "c1" ⟨false, some ⟨none, some "c2"⟩⟩ [] rfl⟩

theorem daysBeforeMonth_succ (y m : Nat) (h : 1 ≤ m) :
    daysBeforeMonth y (m + 1) = daysBeforeMonth y m + daysInMonth y m := by
  cases m with
  | zero => omega
  | succ k => simp [daysBeforeMonth]

theorem dayNumber_dateSucc (d : Date) (h : d.valid) :
    dayNumber (dateSucc d) = dayNumber d + 1 := by
  obtain ⟨h1, h2, h3, h4, h5⟩ := h
  unfold dateSucc
  by_cases hd : d.day < daysInMonth d.year d.month
  · simp only [hd, if_true]
    simp only [dayNumber]
    omega
  · simp only [hd, if_false]
    have hday : d.day = daysInMonth d.year d.month := by omega
    have hdim : 1 ≤ daysInMonth d.year d.month := by omega
    by_cases hm : d.month < 12
    · simp only [hm, if_true]
      simp only [dayNumber]
      rw [daysBeforeMonth_succ d.year d.month h1]
      omega
    · simp only [hm, if_false]
      have hm12 : d.month = 12 := by omega
      simp only [dayNumber]
      rw [show daysBeforeMonth (d.year + 1) 1 = 0 from rfl,
        show daysBeforeYear (d.year + 1) = daysBeforeYear d.year + daysInYear d.year from rfl,
        show daysInYear d.year = daysBeforeMonth d.year 13 from rfl,
        show daysBeforeMonth d.year 13 =
          daysBeforeMonth d.year 12 + daysInMonth d.year 12 from by simp [daysBeforeMonth]]
      have hdim12 : daysInMonth d.year 12 = 31 := by norm_num [daysInMonth]
      rw [hm12] at hday
      rw [hm12]
      omega

theorem pageLoop_reqs (ss : SalesData → List Payment → SalesData) (b e : Nat) :
    ∀ (rest : List SquareResult) (sd : SalesData) (cur : SquareResult)
      (res : SalesData × List ListPaymentsRequest),
      pageLoop ss b e sd cur rest = some res →
      ∀ req ∈ res.2, req.begin_time = b ∧ req.end_time = e := by
  intro rest
  induction rest with
  | nil =>
    rintro sd ⟨suc, _ | ⟨pay, _ | c⟩⟩ res h req hreq
    · exact absurd h (by simp [pageLoop])
    · simp only [pageLoop, Option.some.injEq] at h
      rw [← h] at hreq
      simp at hreq
    · exact absurd h (by simp [pageLoop])
  | cons r rest ih =>
    rintro sd ⟨suc, _ | ⟨pay, _ | c⟩⟩ res h req hreq
    · exact absurd h (by simp [pageLoop])
    · simp only [pageLoop, Option.some.injEq] at h
      rw [← h] at hreq
      simp at hreq
    · simp only [pageLoop, Option.map_eq_some'] at h
      obtain ⟨pr, hpr, hres⟩ := h
      rw [← hres] at hreq
      simp only [List.mem_cons] at hreq
      rcases hreq with rfl | hreq
      · exact ⟨rfl, rfl⟩
      · exact ih _ r pr hpr req hreq

theorem write_day_reqs (ss : SalesData → List Payment → SalesData) (d : Date)
    (first : SquareResult) (rest : List SquareResult)
    (rec : DailyRecord) (reqs : List ListPaymentsRequest)
    (h : write_day ss d first rest = some (rec, reqs)) :
    ∀ req ∈ reqs,
      req.begin_time = first_midnight d ∧ req.end_time = last_midnight d := by
  simp only [write_day] at h
  split at h
  · split at h
    · split at h
      · exact absurd h (by simp)
      · rename_i ps hps x sdF reqs' hloop
        simp only [Option.some.injEq, Prod.mk.injEq] at h
        rw [← h.2]
        intro req hreq
        simp only [List.mem_cons] at hreq
        rcases hreq with rfl | hreq
        · exact ⟨rfl, rfl⟩
        · exact pageLoop_reqs ss _ _ rest _ _ _ hloop req hreq
    · simp only [Option.some.injEq, Prod.mk.injEq] at h
      rw [← h.2]
      intro req hreq
      simp only [List.mem_singleton] at hreq
      rw [hreq]
      exact ⟨rfl, rfl⟩
  · simp only [Option.some.injEq, Prod.mk.injEq] at h
    rw [← h.2]
    intro req hreq
    simp only [List.mem_singleton] at hreq
    rw [hreq]
    exact ⟨rfl, rfl⟩

/-- C9: every `list_payments` request a day issues uses the same window, with
`begin_time` the naive local midnight of that date and `end_time` one
millisecond before the local midnight of the next day (both handed to the
zone-aware ISO conversion), so an instant at exactly local midnight lies
outside the window of the preceding day and inside that of the following day. -/
theorem C9_window_bounds :
    (∀ (ss : SalesData → List Payment → SalesData) (d : Date)
      (first : SquareResult) (rest : List SquareResult)
      (rec : DailyRecord) (reqs : List ListPaymentsRequest),
      write_day ss d first rest = some (rec, reqs) →
      ∀ req ∈ reqs,
        req.begin_time = first_midnight d ∧ req.end_time = last_midnight d) ∧
    (∀ d : Date, d.valid →
      last_midnight d + 1 = first_midnight (dateSucc d) ∧
      ¬ inWindow d (first_midnight (dateSucc d)) ∧
      inWindow (dateSucc d) (first_midnight (dateSucc d))) := by
  refine ⟨write_day_reqs, ?_⟩
  intro d hv
  have hsucc := dayNumber_dateSucc d hv
  refine ⟨?_, ?_, ?_⟩
  · simp only [last_midnight, first_midnight, hsucc, msPerDay]
    omega
  · simp only [inWindow, first_midnight, last_midnight, hsucc, msPerDay, not_and, not_le]
    intro _
    omega
  · simp only [inWindow, first_midnight, last_midnight, hsucc, msPerDay]
    omega

/-- Witness for C9 at a concrete date and trace. -/
theorem C9_witness :
    ((⟨first_midnight ⟨1, 2, 2024⟩, last_midnight ⟨1, 2, 2024⟩, none⟩ :
        ListPaymentsRequest).begin_time = first_midnight ⟨1, 2, 2024⟩ ∧
     (⟨first_midnight ⟨1, 2, 2024⟩, last_midnight ⟨1, 2, 2024⟩, none⟩ :
        ListPaymentsRequest).end_time = last_midnight ⟨1, 2, 2024⟩) ∧
    Date.valid ⟨1, 2, 2024⟩ ∧
    last_midnight ⟨1, 2, 2024⟩ + 1 = first_midnight (dateSucc ⟨1, 2, 2024⟩) ∧
    ¬ inWindow ⟨1, 2, 2024⟩ (first_midnight (dateSucc ⟨1, 2, 2024⟩)) ∧
    inWindow (dateSucc ⟨1, 2, 2024⟩) (first_midnight (dateSucc ⟨1, 2, 2024⟩)) :=
  have hv : Date.valid ⟨1, 2, 2024⟩ := by decide
  have h1 := C9_window_bounds.1 sales_util.sum_sales ⟨1, 2, 2024⟩
    (SquareResult.mk false none) [] { sales := strftimeMDY ⟨1, 2, 2024⟩, metrics := {} }
    [⟨first_midnight ⟨1, 2, 2024⟩, last_midnight ⟨1, 2, 2024⟩, none⟩] rfl
    ⟨first_midnight ⟨1, 2, 2024⟩, last_midnight ⟨1, 2, 2024⟩, none⟩ (by simp)
  have h2 := C9_window_bounds.2 ⟨1, 2, 2024⟩ hv
  ⟨h1, hv, h2⟩

theorem scanLoop_descent (s : List Char) (j : Nat) (hj : 1 ≤ j)
    (hnl : s[j]? = some '\n') :
    ∀ k, j ≤ k → (∀ i, j < i → i ≤ k → s[i]? ≠ some '\n') →
    scanLoop s k k = j + 1 := by
  intro k
  induction k using Nat.strong_induction_on with
  | _ k ih =>
    intro hjk hno
    rcases Nat.eq_or_lt_of_le hjk with heq | hlt
    · subst heq
      obtain ⟨m, rfl⟩ : ∃ m, j = m + 1 := ⟨j - 1, by omega⟩
      simp only [scanLoop]
      rw [if_pos hnl]
    · obtain ⟨m, rfl⟩ : ∃ m, k = m + 1 := ⟨k - 1, by omega⟩
      simp only [scanLoop]
      rw [if_neg (hno (m + 1) hlt (le_refl _))]
      exact ih m (by omega) (by omega) fun i h1 h2 => hno i h1 (by omega)

theorem scanLoop_from_end (s : List Char) (h : 2 ≤ s.length) :
    scanLoop s (s.length - 1) s.length =
    scanLoop s (s.length - 2) (s.length - 2) := by
  obtain ⟨m, hm⟩ : ∃ m, s.length - 1 = m + 1 := ⟨s.length - 2, by omega⟩
  rw [hm]
  simp only [scanLoop]
  rw [if_neg (by simp [List.getElem?_eq_none (le_refl s.length)])]
  rw [show m = s.length - 2 from by omega]

theorem scanLoop_last_row (pre row tail : List Char) (hpre : pre ≠ [])
    (hrow : row ≠ []) (hnl : '\n' ∉ row) (htail : tail = [] ∨ tail = ['\n']) :
    scanLoop (pre ++ '\n' :: (row ++ tail))
      ((pre ++ '\n' :: (row ++ tail)).length - 1)
      (pre ++ '\n' :: (row ++ tail)).length = pre.length + 1 := by
  have hpre1 : 1 ≤ pre.length := List.length_pos.mpr hpre
  have hrow1 : 1 ≤ row.length := List.length_pos.mpr hrow
  have htl : tail.length ≤ 1 := by
    rcases htail with rfl | rfl <;> simp
  have hlen : (pre ++ '\n' :: (row ++ tail)).length =
      pre.length + 1 + row.length + tail.length := by
    simp [List.length_append]
    omega
  rw [scanLoop_from_end _ (by omega)]
  have hj : (pre ++ '\n' :: (row ++ tail))[pre.length]? = some '\n' := by
    rw [List.getElem?_append_right (le_refl pre.length)]
    simp
  apply scanLoop_descent _ pre.length hpre1 hj _ (by omega)
  intro i hi1 hi2 hcontra
  rw [List.getElem?_append_right (by omega : pre.length ≤ i)] at hcontra
  obtain ⟨k, hk⟩ : ∃ k, i - pre.length = k + 1 := ⟨i - pre.length - 1, by omega⟩
  rw [hk] at hcontra
  simp only [List.getElem?_cons_succ] at hcontra
  have hkr : k < row.length := by omega
  rw [List.getElem?_append_left hkr] at hcontra
  exact hnl (List.getElem?_mem hcontra)

theorem takeLine_no_nl (l : List Char) (h : '\n' ∉ l) : takeLine l = l := by
  induction l with
  | nil => rfl
  | cons c cs ih =>
    have hc : ¬ (c = '\n') := by
      intro hceq
      subst hceq
      exact h (List.mem_cons_self _ _)
    simp only [takeLine]
    rw [if_neg hc, ih fun hm => h (List.mem_cons_of_mem c hm)]

theorem takeLine_append_nl (row : List Char) (h : '\n' ∉ row) :
    takeLine (row ++ ['\n']) = row ++ ['\n'] := by
  induction row with
  | nil => rfl
  | cons c cs ih =>
    have hc : ¬ (c = '\n') := by
      intro hceq
      subst hceq
      exact h (List.mem_cons_self _ _)
    simp only [List.cons_append, takeLine, List.append_eq]
    rw [if_neg hc, ih fun hm => h (List.mem_cons_of_mem c hm)]

theorem stripChars_append_nl (row : List Char) :
    stripChars (row ++ ['\n']) = stripChars row := by
  have hsp : isPySpace '\n' = true := by decide
  unfold stripChars rstripChars
  rw [List.reverse_append, show (['\n'] : List Char).reverse = ['\n'] from rfl,
    List.singleton_append, List.dropWhile_cons_of_pos hsp]

/-- C8: for a ledger whose final data row starts with a date that parses as
`MM/DD/YYYY`, `get_last_update_date` returns the following calendar date,
whatever precedes that row and whether or not the file ends with a trailing
newline (with one, the backward scan still recovers the data row, not an
empty line). -/
theorem C8_resolver_returns_next_date (pre row tail : List Char) (D : Date)
    (hpre : pre ≠ []) (hrow : row ≠ []) (hnl : '\n' ∉ row)
    (htail : tail = [] ∨ tail = ['\n'])
    (hparse : strptimeMDY (firstField (stripChars row)) = some D) :
    get_last_update_date (pre ++ '\n' :: (row ++ tail)) = some (dateSucc D) := by
  simp only [get_last_update_date]
  rw [scanLoop_last_row pre row tail hpre hrow hnl htail]
  simp only [readlineFrom]
  rw [List.drop_append, List.drop_succ_cons, List.drop_zero]
  rcases htail with rfl | rfl
  · rw [List.append_nil, takeLine_no_nl row hnl, hparse]
    rfl
  · rw [takeLine_append_nl row hnl, stripChars_append_nl row, hparse]
    rfl

/-- Witness for C8 on a concrete two-line ledger ending with a newline. -/
theorem C8_witness :
    get_last_update_date
      ("Sales,Gross".toList ++ '\n' :: ("01/02/2024,5".toList ++ ['\n'])) =
      some (dateSucc ⟨1, 2, 2024⟩) :=
  C8_resolver_returns_next_date "Sales,Gross".toList "01/02/2024,5".toList ['\n']
    ⟨1, 2, 2024⟩ (by decide) (by decide) (by decide) (Or.inr rfl) (by decide)
